import Mathlib

/-!
Verification development for the LangBot cowork-agent core: a shallow
embedding of the sandbox manager (`pkg/core/sandbox.py`), the cowork
runner's agent loop and supervisor fan-out (`pkg/provider/runners/cowork_runner.py`),
the tool manager and registries (`pkg/provider/tools/*`), and the XML skill
loader (`pkg/provider/tools/loaders/skill.py`).

Python exceptions are modelled with `Except Exn`; where Python mutates an
object in place and an exception can escape, the embedding returns the
mutated state together with an optional exception, so that partial mutation
survives the raise exactly as in the source.  Python `dict`s are modelled as
insertion-ordered association lists (`dlookup` / `dictInsert` below mirror
`d[k]` reads and `d[k] = v` writes, including the fact that updating an
existing key keeps its position while a new key is appended).
-/

/-- Model of a Python exception: its message string. -/
abbrev Exn := String

/-- Python `d.get(k)` / `k in d` on an insertion-ordered dict modelled as an
association list: the first binding of the key, if any. -/
def dlookup {κ α : Type} [DecidableEq κ] (k : κ) : List (κ × α) → Option α
  | [] => none
  | (k', v) :: rest => if k' = k then some v else dlookup k rest

/-- Python `d[k] = v` on an insertion-ordered dict: an existing key is
updated in place (keeping its position), a new key is appended. -/
def dictInsert {κ α : Type} [DecidableEq κ] : List (κ × α) → κ → α → List (κ × α)
  | [], k, v => [(k, v)]
  | (k', w) :: rest, k, v =>
    if k' = k then (k, v) :: rest else (k', w) :: dictInsert rest k v

theorem dlookup_dictInsert {κ α : Type} [DecidableEq κ]
    (d : List (κ × α)) (k : κ) (v : α) :
    dlookup k (dictInsert d k v) = some v := by
  induction d with
  | nil => simp [dictInsert, dlookup]
  | cons p rest ih =>
    by_cases hk : p.1 = k
    · simp [dictInsert, hk, dlookup]
    · cases p with
      | mk k' w =>
        simp only at hk
        simp only [dictInsert, if_neg hk, dlookup]
        exact ih

/-- A value stored by `dictInsert` is among the dict's values. -/
theorem dictInsert_mem_values {κ α : Type} [DecidableEq κ]
    (d : List (κ × α)) (k : κ) (v : α) :
    v ∈ (dictInsert d k v).map (fun p => p.2) := by
  induction d with
  | nil => simp [dictInsert]
  | cons p rest ih =>
    by_cases hk : p.1 = k
    · cases p with
      | mk k' w =>
        simp only at hk
        simp [dictInsert, hk]
    · cases p with
      | mk k' w =>
        simp only at hk
        simp only [dictInsert, if_neg hk, List.map_cons]
        exact List.mem_cons_of_mem _ ih

/-! ## Messages and tool calls

Embedding of `langbot_plugin.api.entities.builtin.provider.message.Message`
as consumed by the cowork runner: role, content, the list of tool-call
requests carried by an assistant message, and the `tool_call_id` / `name`
fields set on tool-result messages. -/

/-- The `function` payload of a tool call: target tool name and the raw
(unparsed) JSON argument string. -/
structure ToolCallFunction where
  name : String
  arguments : String
deriving DecidableEq, Repr

/-- A tool-call request carried by an assistant message. -/
structure ToolCall where
  id : String
  function : ToolCallFunction
deriving DecidableEq, Repr

/-- A conversation message. `tool_calls = []` models a message without
tool-call requests (Python `msg.tool_calls` being falsy). -/
structure Message where
  role : String
  content : String
  tool_calls : List ToolCall
  tool_call_id : Option String
  name : Option String
deriving DecidableEq, Repr

/-! ## Agent turn loop (`CoworkRunner._run_agent_loop`)

The tools handed to the loop are `resource_tool.LLMTool` values whose
behaviour is their `name` and `func`.  A tool invocation either returns a
result string or raises (`Except.error`).  `json.loads` is an external
library call; it is modelled by a parameter `json_loads` mapping the raw
argument string either to the parsed keyword arguments or to a raised
`JSONDecodeError`. -/

/-- Parsed keyword arguments of a tool call (the dict `json.loads` returns). -/
abbrev Args := List (String × String)

/-- Runner-side tool (`resource_tool.LLMTool` as used by the cowork runner):
its name and its `func`, which may raise. -/
structure RunnerTool where
  name : String
  func : Args → Except Exn String

/-- The tool-result message appended for a processed tool call
(`Message(role="tool", content=str(res), tool_call_id=tool_call.id,
name=tool_call.function.name)`). -/
def mkToolResult (content : String) (tc : ToolCall) : Message :=
  ⟨"tool", content, [], some tc.id, some tc.function.name⟩

/-- One iteration of the inner `for tool_call in msg.tool_calls` loop of
`CoworkRunner._run_agent_loop` (cowork_runner.py lines 184-201): resolve the
tool by name; if absent, nothing is appended (the source has no `else`
branch); if present, `json.loads` runs OUTSIDE the `try` (so its exception
propagates), while a fault in `tool.func` is caught and rendered as
`"Error: {e}"`.  Returns the tool-result messages this call contributes. -/
def processToolCall (json_loads : String → Except Exn Args)
    (tools : List RunnerTool) (tc : ToolCall) : Except Exn (List Message) :=
  match tools.find? (fun t => t.name == tc.function.name) with
  | none => Except.ok []
  | some tool =>
    match json_loads tc.function.arguments with
    | Except.error e => Except.error e
    | Except.ok args =>
      match tool.func args with
      | Except.ok res => Except.ok [mkToolResult res tc]
      | Except.error e => Except.ok [mkToolResult (String.append "Error: " e) tc]

/-- The whole inner loop over `msg.tool_calls`: tool-result messages are
accumulated in call order; an uncaught exception in one call propagates and
aborts the remaining calls (the `messages.extend` never runs). -/
def processToolCalls (json_loads : String → Except Exn Args)
    (tools : List RunnerTool) : List ToolCall → Except Exn (List Message)
  | [] => Except.ok []
  | tc :: rest =>
    match processToolCall json_loads tools tc with
    | Except.error e => Except.error e
    | Except.ok rs =>
      match processToolCalls json_loads tools rest with
      | Except.error e => Except.error e
      | Except.ok rss => Except.ok (rs ++ rss)

/-- The fixed turn budget of `CoworkRunner._run_agent_loop` (`max_turns = 10`). -/
def max_turns : Nat := 10

/-- The sentinel returned when the turn budget is exhausted. -/
def maxTurnsSentinel : String := "Agent execution timed out (max turns reached)."

/-- The `for _ in range(max_turns)` loop of `CoworkRunner._run_agent_loop`
(lines 173-206).  `model` is the LLM oracle (`invoke_llm`): the assistant
message returned for a given history.  The result pairs the returned string
with the number of model invocations performed. -/
def run_agent_loop_aux (json_loads : String → Except Exn Args)
    (model : List Message → Message) (tools : List RunnerTool) :
    Nat → List Message → Nat → Except Exn (String × Nat)
  | 0, _, count => Except.ok (maxTurnsSentinel, count)
  | Nat.succ fuel, messages, count =>
    let msg := model messages
    let messages' := messages ++ [msg]
    if msg.tool_calls.isEmpty then
      Except.ok (msg.content, count + 1)
    else
      match processToolCalls json_loads tools msg.tool_calls with
      | Except.error e => Except.error e
      | Except.ok tool_results =>
        run_agent_loop_aux json_loads model tools fuel (messages' ++ tool_results) (count + 1)

/-- `CoworkRunner._run_agent_loop`: starts from the system-prompt and
instruction messages and runs up to `max_turns` turns. -/
def run_agent_loop (json_loads : String → Except Exn Args)
    (model : List Message → Message) (tools : List RunnerTool)
    (system_prompt instruction : String) : Except Exn (String × Nat) :=
  run_agent_loop_aux json_loads model tools max_turns
    [⟨"system", system_prompt, [], none, none⟩, ⟨"user", instruction, [], none, none⟩] 0

/-! ## Supervisor fan-out / fan-in (`CoworkRunner.run`, lines 261-288)

The supervisor collects all `delegate_to_agent` calls of one response into
`tasks` / `tool_calls_to_process` (other tool names are skipped entirely),
runs them concurrently with `asyncio.gather`, and then appends the response
message followed by one tool-result message per delegate call, indexed by
the original call order.

`asyncio.gather` is modelled explicitly: the scheduler completes the tasks
in some order (`order`, a list of task indices); each completion logs the
pair (index, result); `gather` returns, for each index in task order, the
logged result.  The fan-in barrier is the hypothesis that every task index
appears in the completion log. -/

/-- Parsed arguments of a `delegate_to_agent` call. -/
structure DelegateArgs where
  agent_name : String
  instruction : String
deriving DecidableEq, Repr

/-- `delegate_to_agent` (cowork_runner.py lines 226-235): an unknown agent
name short-circuits with an inline "not found" string; otherwise the target
agent's turn-loop result (abstracted as `runAgent`) is wrapped. -/
def delegate_to_agent (agents : List String) (runAgent : String → String → String)
    (args : DelegateArgs) : String :=
  if agents.contains args.agent_name then
    String.append (String.append (String.append "Agent " args.agent_name) " result: ")
      (runAgent args.agent_name args.instruction)
  else
    String.append (String.append "Agent " args.agent_name) " not found."

/-- The `for tool_call in msg.tool_calls` collection loop of the supervisor
turn: keep the calls named "delegate_to_agent" (in order) with their parsed
arguments (`json.loads` may raise, aborting the turn); skip all others. -/
def delegateTaskList (json_loads_d : String → Except Exn DelegateArgs) :
    List ToolCall → Except Exn (List (DelegateArgs × ToolCall))
  | [] => Except.ok []
  | tc :: rest =>
    if tc.function.name = "delegate_to_agent" then
      match json_loads_d tc.function.arguments with
      | Except.error e => Except.error e
      | Except.ok args =>
        match delegateTaskList json_loads_d rest with
        | Except.error e => Except.error e
        | Except.ok tail => Except.ok ((args, tc) :: tail)
    else
      delegateTaskList json_loads_d rest

/-- The completion log of a concurrent batch: the scheduler finishes tasks
in the order given by `order`; each finished task index is recorded with its
result. Indices out of range never complete (they do not exist). -/
def completionLog (tasks : List String) (order : List Nat) : List (Nat × String) :=
  order.filterMap (fun i => (tasks.get? i).map (fun r => (i, r)))

/-- Model of `asyncio.gather(*tasks)`: whatever order the tasks completed
in, the returned list holds each task's result at the task's original
index. -/
def gather (tasks : List String) (order : List Nat) : List String :=
  (List.range tasks.length).map (fun i => (dlookup i (completionLog tasks order)).getD "")

theorem dlookup_completionLog (tasks : List String) :
    ∀ (order : List Nat) (i : Nat), i ∈ order → i < tasks.length →
      dlookup i (completionLog tasks order) = tasks.get? i := by
  intro order
  induction order with
  | nil => intro i hi; cases hi
  | cons j rest ih =>
    intro i hi hlen
    by_cases hj : j = i
    · subst hj
      have hget : tasks.get? j = some (tasks.get ⟨j, hlen⟩) := List.get?_eq_get hlen
      simp only [completionLog, List.filterMap_cons, hget, Option.map_some]
      simp [dlookup, hget]
    · rcases List.mem_cons.mp hi with h | h
      · exact absurd h.symm hj
      · simp only [completionLog, List.filterMap_cons]
        cases hget : tasks.get? j with
        | none =>
          simpa [completionLog] using ih i h hlen
        | some r =>
          simp only [Option.map_some, dlookup, if_neg hj]
          simpa [completionLog] using ih i h hlen

/-- Fan-in: once every task has completed — in any order — `gather` returns
the results in task order. -/
theorem gather_of_all_complete (tasks : List String) (order : List Nat)
    (hall : ∀ i, i < tasks.length → i ∈ order) :
    gather tasks order = tasks := by
  apply List.ext_getElem
  · simp [gather]
  · intro i h1 h2
    have hlen : i < tasks.length := h2
    simp only [gather, List.getElem_map, List.getElem_range]
    rw [dlookup_completionLog tasks order i (hall i hlen) hlen]
    simp [List.getElem?_eq_getElem hlen]

/-- Tool-result message appended by the supervisor for a completed delegate
call (`Message(role="tool", content=res, tool_call_id=tool_call.id,
name=tool_call.function.name)`). -/
def mkDelegateResult (res : String) (tc : ToolCall) : Message :=
  ⟨"tool", res, [], some tc.id, some tc.function.name⟩

/-- The tool-call-processing part of one supervisor iteration
(`CoworkRunner.run`, lines 261-288): collect the delegate calls, run them
concurrently (`asyncio.gather`, completion order `order`), then append the
assistant message followed by one tool-result per delegate call at its
original position.  The boolean records whether the loop continues (`tasks`
nonempty) or `run` yields the message and returns. -/
def supervisorProcessToolCalls (json_loads_d : String → Except Exn DelegateArgs)
    (delegate : DelegateArgs → String) (order : List Nat)
    (req_messages : List Message) (msg : Message) :
    Except Exn (List Message × Bool) :=
  match delegateTaskList json_loads_d msg.tool_calls with
  | Except.error e => Except.error e
  | Except.ok pairs =>
    if pairs.isEmpty then
      Except.ok (req_messages, false)
    else
      let results := gather (pairs.map (fun p => delegate p.1)) order
      Except.ok
        (req_messages ++ [msg] ++
          (results.zip (pairs.map (fun p => p.2))).map (fun rtc => mkDelegateResult rtc.1 rtc.2),
         true)

/-! ## Sandbox manager (`pkg/core/sandbox.py`, class `SandboxManager`)

A managed sandbox instance is modelled by its id, its effective backend
("docker" — the Firecracker request falls back to Docker with a warning),
and the outcome its `stop()` will produce.  The outcome of the backend's
`start()` is supplied by the behaviour parameter `startB` (Docker's
`docker run` may fail), and `uuid.uuid4()` is modelled by a counter drawn
from the manager state (`uuidSeq`): each `create_sandbox` call consumes one
fresh uuid before anything else, exactly as the source's first line does.

Methods that can raise while having already mutated the manager return the
(partially) mutated state together with `Option Exn`, matching Python's
in-place mutation surviving a raise. -/

deriving instance DecidableEq for Except

/-- A registered sandbox instance as seen by the manager. -/
structure SBInst where
  id : String
  backend : String
  stopResult : Except Exn Unit
deriving DecidableEq, Repr

/-- Manager state: the `instances` dict plus the uuid-generator state. -/
structure SandboxManager where
  instances : List (String × SBInst)
  uuidSeq : Nat
deriving DecidableEq, Repr

/-- Model of `str(uuid.uuid4())`: the n-th fresh identifier. -/
def freshUuid (n : Nat) : String := String.append "uuid-" (toString n)

/-- `SandboxManager.create_sandbox` (sandbox.py lines 165-180): draw a fresh
id; "firecracker" falls back to Docker (with a warning), "docker" builds a
Docker sandbox, anything else raises `ValueError` before `start()`;
`start()` is called before registration, so a start failure propagates with
the registry unchanged. -/
def create_sandbox (mgr : SandboxManager) (type : String)
    (startB stopB : String → Except Exn Unit) :
    SandboxManager × Except Exn SBInst :=
  let sandbox_id := freshUuid mgr.uuidSeq
  let mgr' : SandboxManager := ⟨mgr.instances, mgr.uuidSeq + 1⟩
  if type = "firecracker" ∨ type = "docker" then
    match startB sandbox_id with
    | Except.error e => (mgr', Except.error e)
    | Except.ok _ =>
      let sb : SBInst := ⟨sandbox_id, "docker", stopB sandbox_id⟩
      (⟨dictInsert mgr'.instances sandbox_id sb, mgr'.uuidSeq⟩, Except.ok sb)
  else
    (mgr', Except.error (String.append "Unknown sandbox type: " type))

/-- `SandboxManager.get_sandbox`: pure registry lookup. -/
def get_sandbox (mgr : SandboxManager) (sandbox_id : String) : Option SBInst :=
  dlookup sandbox_id mgr.instances

/-- `SandboxManager.destroy_sandbox` (lines 185-189): absent id is a no-op;
otherwise `stop()` runs first — if it raises, the exception propagates and
the entry is NOT removed; on success the entry is deleted. -/
def destroy_sandbox (mgr : SandboxManager) (sandbox_id : String) :
    SandboxManager × Option Exn :=
  match dlookup sandbox_id mgr.instances with
  | none => (mgr, none)
  | some sb =>
    match sb.stopResult with
    | Except.error e => (mgr, some e)
    | Except.ok _ =>
      (⟨mgr.instances.filter (fun p => decide (p.1 ≠ sandbox_id)), mgr.uuidSeq⟩, none)

/-- The `for sandbox_id in list(self.instances.keys())` loop of
`SandboxManager.shutdown`: destroys each id in turn; an exception from one
`destroy_sandbox` propagates immediately, skipping the remaining ids. -/
def shutdownLoop : SandboxManager → List String → SandboxManager × Option Exn
  | mgr, [] => (mgr, none)
  | mgr, sandbox_id :: rest =>
    match destroy_sandbox mgr sandbox_id with
    | (mgr', none) => shutdownLoop mgr' rest
    | (mgr', some e) => (mgr', some e)

/-- `SandboxManager.shutdown` (lines 191-193): iterate over a snapshot of
the registered ids. -/
def shutdown (mgr : SandboxManager) : SandboxManager × Option Exn :=
  shutdownLoop mgr (mgr.instances.map (fun p => p.1))

/-! ## Docker sandbox command execution (`DockerSandbox.execute_command`)

The behaviour of the `docker exec` subprocess for a given command is
modelled by `CmdBehavior`: how long the command would run, and the exit
code / stdout / stderr it would produce if allowed to finish.
`asyncio.wait_for(process.communicate(), timeout=timeout)` raises
`TimeoutError` exactly when the run time exceeds the timeout; the handler
then calls `process.kill()` and returns the sentinel triple.  The final
`Bool` of a successful result records whether `process.kill()` was invoked
on the subprocess. -/

/-- What the command would do if run to completion inside the container. -/
structure CmdBehavior where
  duration : Nat
  exitCode : Int
  stdout : String
  stderr : String
deriving DecidableEq, Repr

/-- The Docker-backed sandbox: `container_id` is set by `start()`. -/
structure DockerSandbox where
  id : String
  image : String
  container_id : Option String
deriving DecidableEq, Repr

/-- `DockerSandbox.execute_command` (sandbox.py lines 115-130): raises
"Sandbox not started" when there is no container; otherwise runs the
command, returning `(returncode, stdout, stderr, killed)` — on timeout the
process is killed and the sentinel `(-1, "", "Command timed out")` is
returned instead of raising. -/
def execute_command (sb : DockerSandbox) (beh : CmdBehavior) (timeout : Nat := 30) :
    Except Exn (Int × String × String × Bool) :=
  match sb.container_id with
  | none => Except.error "Sandbox not started"
  | some _ =>
    if timeout < beh.duration then
      Except.ok (-1, "", "Command timed out", true)
    else
      Except.ok (beh.exitCode, beh.stdout, beh.stderr, false)

/-! ## Sandbox acquisition in the runner (`CoworkRunner._get_sandbox`)

State: the class-level `sandbox_map : session_id -> sandbox_id` together
with the application's sandbox manager.  The returned `Nat` counts how many
times `create_sandbox` (provisioning) was invoked by the call. -/

/-- The runner-side state touched by `_get_sandbox`. -/
structure CoworkState where
  sandbox_map : List (String × String)
  mgr : SandboxManager
deriving DecidableEq, Repr

/-- The create-new path of `_get_sandbox` (lines 64-67): provision a Docker
sandbox, record its id in `sandbox_map`, return it. -/
def get_sandbox_create (st : CoworkState)
    (startB stopB : String → Except Exn Unit) (session_id : String) :
    Except Exn (SBInst × CoworkState × Nat) :=
  match create_sandbox st.mgr "docker" startB stopB with
  | (_, Except.error e) => Except.error e
  | (mgr', Except.ok sb) =>
    Except.ok (sb, ⟨dictInsert st.sandbox_map session_id sb.id, mgr'⟩, 1)

/-- `CoworkRunner._get_sandbox` (lines 58-67): if the session already maps
to a live sandbox, return it without provisioning; otherwise create a new
one and cache its id. -/
def get_sandbox_for_session (st : CoworkState)
    (startB stopB : String → Except Exn Unit) (session_id : String) :
    Except Exn (SBInst × CoworkState × Nat) :=
  match dlookup session_id st.sandbox_map with
  | some sbid =>
    match get_sandbox st.mgr sbid with
    | some sb => Except.ok (sb, st, 0)
    | none => get_sandbox_create st startB stopB session_id
  | none => get_sandbox_create st startB stopB session_id

/-! ## Tool manager and registries (`pkg/provider/tools/*`)

`LLMTool` is the dataclass of `pkg/provider/tools/entities.py`; the
parameter dict built by the skill loader may use `None` as a key (a
`<name>` element with empty text), hence `Option String` keys. -/

/-- Schema information stored per parameter by the skill loader. -/
structure ParamInfo where
  type : Option String
  description : Option String
deriving DecidableEq, Repr

/-- `entities.LLMTool` (the fields the registries and loaders touch). -/
structure LLMTool where
  name : String
  description : Option String
  parameters : List (Option String × ParamInfo)
deriving DecidableEq, Repr

/-- `SkillRegistry`: `skills` dict keyed by tool name. -/
structure SkillRegistry where
  skills : List (String × LLMTool)
deriving DecidableEq, Repr

/-- `SkillRegistry.register_skill`: `self.skills[skill.name] = skill`. -/
def register_skill (r : SkillRegistry) (skill : LLMTool) : SkillRegistry :=
  ⟨dictInsert r.skills skill.name skill⟩

/-- `SkillRegistry.get_skill`: dict lookup. -/
def get_skill (r : SkillRegistry) (name : String) : Option LLMTool :=
  dlookup name r.skills

/-- `SkillRegistry.get_all_skills`: `list(self.skills.values())`. -/
def get_all_skills (r : SkillRegistry) : List LLMTool :=
  r.skills.map (fun p => p.2)

/-- `MCPRegistry`: `tools` dict keyed by tool name. -/
structure MCPRegistry where
  tools : List (String × LLMTool)
deriving DecidableEq, Repr

/-- The registration step `self.tools[tool.name] = tool` performed for each
parsed tool inside `MCPRegistry.load_tools_from_server`. -/
def mcp_register_tool (r : MCPRegistry) (tool : LLMTool) : MCPRegistry :=
  ⟨dictInsert r.tools tool.name tool⟩

/-- `MCPRegistry.get_tool`: dict lookup. -/
def mcp_get_tool (r : MCPRegistry) (name : String) : Option LLMTool :=
  dlookup name r.tools

/-- `MCPRegistry.get_all_tools`: `list(self.tools.values())`. -/
def mcp_get_all_tools (r : MCPRegistry) : List LLMTool :=
  r.tools.map (fun p => p.2)

/-- `ToolManager`: holds the two registries. -/
structure ToolManager where
  skill_registry : SkillRegistry
  mcp_registry : MCPRegistry
deriving DecidableEq, Repr

/-- `ToolManager.get_tool` (toolmgr.py lines 20-24): skills first, then the
remote (MCP) registry. -/
def tool_manager_get_tool (tm : ToolManager) (name : String) : Option LLMTool :=
  match get_skill tm.skill_registry name with
  | some tool => some tool
  | none => mcp_get_tool tm.mcp_registry name

/-- `ToolManager.get_all_tools` (toolmgr.py lines 26-29):
`skills + mcp_tools`, no de-duplication. -/
def tool_manager_get_all_tools (tm : ToolManager) : List LLMTool :=
  get_all_skills tm.skill_registry ++ mcp_get_all_tools tm.mcp_registry

/-! ## XML skill loader (`pkg/provider/tools/loaders/skill.py`)

`xml.etree.ElementTree` elements are modelled as trees with a tag, an
optional text and a list of child elements.  `find` returns the first
direct child with the given tag, `findall` all of them, matching
ElementTree's behaviour on direct children.  `ET.fromstring` is an external
library call, modelled by a `parse` parameter returning `none` on
`ET.ParseError`.

Faithfulness notes carried over from the source:
* `if name_node is None or not name_node.text` also drops a tool whose
  `<name>` has empty text (falsy string);
* `if parameters_node:` uses ElementTree element truthiness, which is the
  element having at least one child;
* inside the parameter loop, `param_node.find(..).text` raises
  `AttributeError` when the child is missing (the whole tool is dropped by
  the `except AttributeError` handler), while a present child whose text is
  `None` is kept (even as a `None` dict key for `<name>`). -/

/-- An ElementTree element. -/
inductive XmlNode where
  | elem (tag : String) (text : Option String) (children : List XmlNode)
deriving Repr

/-- The element's tag. -/
def XmlNode.tag : XmlNode → String
  | XmlNode.elem t _ _ => t

/-- The element's text. -/
def XmlNode.text : XmlNode → Option String
  | XmlNode.elem _ t _ => t

/-- The element's direct children. -/
def XmlNode.children : XmlNode → List XmlNode
  | XmlNode.elem _ _ c => c

/-- `element.findall(tag)`: all direct children with that tag. -/
def findall (n : XmlNode) (tag : String) : List XmlNode :=
  n.children.filter (fun c => c.tag == tag)

/-- `element.find(tag)`: the first direct child with that tag. -/
def xfind (n : XmlNode) (tag : String) : Option XmlNode :=
  n.children.find? (fun c => c.tag == tag)

/-- One iteration of the `for param_node in parameters_node.findall('parameter')`
loop of `SkillLoader._parse_xml_skill`: `none` models the `AttributeError`
raised when `<name>`, `<type>` or `<description>` is missing. -/
def parseParam (p : XmlNode) : Option (Option String × ParamInfo) :=
  match xfind p "name" with
  | none => none
  | some nameN =>
    match xfind p "type" with
    | none => none
    | some typeN =>
      match xfind p "description" with
      | none => none
      | some descN => some (nameN.text, ⟨typeN.text, descN.text⟩)

/-- The parameter loop: builds the `parameters` dict in order; an
`AttributeError` from any parameter aborts the whole tool. -/
def buildParams : List XmlNode → List (Option String × ParamInfo) →
    Option (List (Option String × ParamInfo))
  | [], acc => some acc
  | p :: rest, acc =>
    match parseParam p with
    | none => none
    | some kv => buildParams rest (dictInsert acc kv.1 kv.2)

/-- `SkillLoader._parse_xml_skill` (skill.py lines 35-61). -/
def parse_xml_skill (tool_node : XmlNode) : Option LLMTool :=
  match xfind tool_node "name" with
  | none => none
  | some name_node =>
    match name_node.text with
    | none => none
    | some name =>
      if name = "" then none
      else
        let description := (xfind tool_node "description").bind XmlNode.text
        match xfind tool_node "parameters" with
        | some parameters_node =>
          if parameters_node.children.isEmpty then
            some ⟨name, description, []⟩
          else
            match buildParams (findall parameters_node "parameter") [] with
            | none => none
            | some ps => some ⟨name, description, ps⟩
        | none => some ⟨name, description, []⟩

/-- `SkillLoader.load_skills_from_definition` (skill.py lines 17-33):
`parse` models `ET.fromstring` (`none` = `ET.ParseError`, caught and turned
into the empty list); otherwise every direct `<tool>` child that parses
contributes a skill. -/
def load_skills_from_definition (parse : String → Option XmlNode)
    (definition : String) : List LLMTool :=
  match parse definition with
  | none => []
  | some root => (findall root "tool").filterMap parse_xml_skill

/-! ## Claims -/

/-- C5: for a started Docker sandbox, `execute_command` on a command whose
execution exceeds the timeout kills the underlying process and returns a
negative exit code, empty stdout and a non-empty diagnostic stderr, without
raising. -/
theorem exec_command_timeout_contract (sb : DockerSandbox) (beh : CmdBehavior)
    (timeout : Nat) (c : String)
    (hstarted : sb.container_id = some c)
    (hexceed : timeout < beh.duration) :
    execute_command sb beh timeout = Except.ok (-1, "", "Command timed out", true) ∧
    (-1 : Int) < 0 ∧ ("Command timed out" : String) ≠ "" := by
  refine ⟨?_, by norm_num, by decide⟩
  unfold execute_command
  rw [hstarted]
  simp [hexceed]

/-- C5 witness: a 60-time-unit command against a 30-unit timeout. -/
theorem exec_command_timeout_contract_witness :
    execute_command ⟨"s1", "alpine:latest", some "c1"⟩ ⟨60, 0, "late", ""⟩ 30 =
      Except.ok (-1, "", "Command timed out", true) :=
  (exec_command_timeout_contract ⟨"s1", "alpine:latest", some "c1"⟩ ⟨60, 0, "late", ""⟩
    30 "c1" rfl (by decide)).1

/-- C10: `create_sandbox` is atomic w.r.t. the registry: when the backend's
`start()` raises, the exception propagates and `instances` is unchanged. -/
theorem create_sandbox_atomic (mgr : SandboxManager)
    (startB stopB : String → Except Exn Unit) (e : Exn)
    (hfail : startB (freshUuid mgr.uuidSeq) = Except.error e) :
    (create_sandbox mgr "docker" startB stopB).2 = Except.error e ∧
    (create_sandbox mgr "docker" startB stopB).1.instances = mgr.instances := by
  unfold create_sandbox
  simp [hfail]

/-- C10 witness: a `docker run` failure on an empty registry. -/
theorem create_sandbox_atomic_witness :
    (create_sandbox ⟨[], 0⟩ "docker" (fun _ => Except.error "Failed to start docker sandbox: no docker")
        (fun _ => Except.ok ())).2 = Except.error "Failed to start docker sandbox: no docker" ∧
    (create_sandbox ⟨[], 0⟩ "docker" (fun _ => Except.error "Failed to start docker sandbox: no docker")
        (fun _ => Except.ok ())).1.instances = [] :=
  create_sandbox_atomic ⟨[], 0⟩ _ (fun _ => Except.ok ())
    "Failed to start docker sandbox: no docker" rfl

/-- C6: sandbox acquisition is idempotent per session: starting from a
state with no sandbox cached for the session, the first call provisions
once and the second call returns the very same sandbox without
provisioning (the `Nat` component counts `create_sandbox` invocations). -/
theorem sandbox_acquisition_idempotent (st : CoworkState)
    (startB stopB : String → Except Exn Unit) (session_id : String)
    (hfresh : dlookup session_id st.sandbox_map = none)
    (hstart : startB (freshUuid st.mgr.uuidSeq) = Except.ok ()) :
    ∃ sb st1,
      get_sandbox_for_session st startB stopB session_id = Except.ok (sb, st1, 1) ∧
      get_sandbox_for_session st1 startB stopB session_id = Except.ok (sb, st1, 0) := by
  refine ⟨⟨freshUuid st.mgr.uuidSeq, "docker", stopB (freshUuid st.mgr.uuidSeq)⟩,
    ⟨dictInsert st.sandbox_map session_id (freshUuid st.mgr.uuidSeq),
     ⟨dictInsert st.mgr.instances (freshUuid st.mgr.uuidSeq)
        ⟨freshUuid st.mgr.uuidSeq, "docker", stopB (freshUuid st.mgr.uuidSeq)⟩,
      st.mgr.uuidSeq + 1⟩⟩, ?_, ?_⟩
  · unfold get_sandbox_for_session
    rw [hfresh]
    unfold get_sandbox_create create_sandbox
    simp [hstart]
  · simp only [get_sandbox_for_session, get_sandbox, dlookup_dictInsert]

/-- C6 witness: fresh state, session "sess". -/
theorem sandbox_acquisition_idempotent_witness :
    ∃ sb st1,
      get_sandbox_for_session ⟨[], ⟨[], 0⟩⟩ (fun _ => Except.ok ()) (fun _ => Except.ok ())
          "sess" = Except.ok (sb, st1, 1) ∧
      get_sandbox_for_session st1 (fun _ => Except.ok ()) (fun _ => Except.ok ())
          "sess" = Except.ok (sb, st1, 0) :=
  sandbox_acquisition_idempotent ⟨[], ⟨[], 0⟩⟩ (fun _ => Except.ok ())
    (fun _ => Except.ok ()) "sess" rfl rfl

/-- C7: `get_all_tools` concatenates skills then MCP tools with no
de-duplication: a skill and a remote tool sharing one name are both
present, the length is the sum of the two sources, and at least two
entries carry the shared name. -/
theorem get_all_tools_no_dedup (sr : SkillRegistry) (mr : MCPRegistry)
    (s t : LLMTool) (hname : t.name = s.name) :
    tool_manager_get_all_tools ⟨register_skill sr s, mcp_register_tool mr t⟩ =
      get_all_skills (register_skill sr s) ++ mcp_get_all_tools (mcp_register_tool mr t) ∧
    s ∈ tool_manager_get_all_tools ⟨register_skill sr s, mcp_register_tool mr t⟩ ∧
    t ∈ tool_manager_get_all_tools ⟨register_skill sr s, mcp_register_tool mr t⟩ ∧
    (tool_manager_get_all_tools ⟨register_skill sr s, mcp_register_tool mr t⟩).length =
      (get_all_skills (register_skill sr s)).length +
        (mcp_get_all_tools (mcp_register_tool mr t)).length ∧
    2 ≤ (tool_manager_get_all_tools ⟨register_skill sr s, mcp_register_tool mr t⟩).countP
          (fun u => u.name == s.name) := by
  have hs : s ∈ get_all_skills (register_skill sr s) := by
    unfold get_all_skills register_skill
    exact dictInsert_mem_values sr.skills s.name s
  have ht : t ∈ mcp_get_all_tools (mcp_register_tool mr t) := by
    unfold mcp_get_all_tools mcp_register_tool
    exact dictInsert_mem_values mr.tools t.name t
  refine ⟨rfl, ?_, ?_, ?_, ?_⟩
  · exact List.mem_append_left _ hs
  · exact List.mem_append_right _ ht
  · unfold tool_manager_get_all_tools
    exact List.length_append _ _
  · simp only [tool_manager_get_all_tools, List.countP_append]
    have h1 : 0 < (get_all_skills (register_skill sr s)).countP (fun u => u.name == s.name) :=
      List.countP_pos_iff.mpr ⟨s, hs, by simp⟩
    have h2 : 0 < (mcp_get_all_tools (mcp_register_tool mr t)).countP (fun u => u.name == s.name) :=
      List.countP_pos_iff.mpr ⟨t, ht, by simp [hname]⟩
    omega

/-- C7 witness: a skill and a remote tool both named "x" on empty
registries. -/
theorem get_all_tools_no_dedup_witness :
    tool_manager_get_all_tools
        ⟨register_skill ⟨[]⟩ ⟨"x", none, []⟩, mcp_register_tool ⟨[]⟩ ⟨"x", some "remote", []⟩⟩ =
      get_all_skills (register_skill ⟨[]⟩ ⟨"x", none, []⟩) ++
        mcp_get_all_tools (mcp_register_tool ⟨[]⟩ ⟨"x", some "remote", []⟩) ∧
    (⟨"x", none, []⟩ : LLMTool) ∈ tool_manager_get_all_tools
        ⟨register_skill ⟨[]⟩ ⟨"x", none, []⟩, mcp_register_tool ⟨[]⟩ ⟨"x", some "remote", []⟩⟩ ∧
    (⟨"x", some "remote", []⟩ : LLMTool) ∈ tool_manager_get_all_tools
        ⟨register_skill ⟨[]⟩ ⟨"x", none, []⟩, mcp_register_tool ⟨[]⟩ ⟨"x", some "remote", []⟩⟩ ∧
    (tool_manager_get_all_tools
        ⟨register_skill ⟨[]⟩ ⟨"x", none, []⟩, mcp_register_tool ⟨[]⟩ ⟨"x", some "remote", []⟩⟩).length =
      (get_all_skills (register_skill ⟨[]⟩ ⟨"x", none, []⟩)).length +
        (mcp_get_all_tools (mcp_register_tool ⟨[]⟩ ⟨"x", some "remote", []⟩)).length ∧
    2 ≤ (tool_manager_get_all_tools
        ⟨register_skill ⟨[]⟩ ⟨"x", none, []⟩, mcp_register_tool ⟨[]⟩ ⟨"x", some "remote", []⟩⟩).countP
          (fun u => u.name == "x") :=
  get_all_tools_no_dedup ⟨[]⟩ ⟨[]⟩ ⟨"x", none, []⟩ ⟨"x", some "remote", []⟩ rfl

/-- A `<tool>` element with no `<name>` child is dropped by the parser. -/
theorem parse_xml_skill_no_name (t : XmlNode) (h : xfind t "name" = none) :
    parse_xml_skill t = none := by
  unfold parse_xml_skill
  rw [h]

/-- C8: a skill document whose root carries two well-formed `<tool>`
elements around one `<tool>` missing `<name>` yields exactly the two
well-formed tools, in order; and a document that fails to parse as XML
yields the empty list. -/
theorem skill_loader_partial_tolerance (parse : String → Option XmlNode)
    (d d' : String) (root t1 t0 t2 : XmlNode) (s1 s2 : LLMTool)
    (hp : parse d = some root)
    (hts : findall root "tool" = [t1, t0, t2])
    (h1 : parse_xml_skill t1 = some s1)
    (h0 : xfind t0 "name" = none)
    (h2 : parse_xml_skill t2 = some s2)
    (hfail : parse d' = none) :
    load_skills_from_definition parse d = [s1, s2] ∧
    load_skills_from_definition parse d' = [] := by
  constructor
  · simp only [load_skills_from_definition, hp, hts, List.filterMap_cons, h1,
      parse_xml_skill_no_name t0 h0, h2, List.filterMap_nil]
  · simp only [load_skills_from_definition, hfail]

/-- C8 witness: a concrete three-tool document (middle tool nameless) and a
non-XML document. -/
theorem skill_loader_partial_tolerance_witness :
    load_skills_from_definition
      (fun s =>
        if s = "GOOD" then
          some (XmlNode.elem "tools" none
            [XmlNode.elem "tool" none
              [XmlNode.elem "name" (some "get_weather") [],
               XmlNode.elem "description" (some "Weather tool.") []],
             XmlNode.elem "tool" none
              [XmlNode.elem "description" (some "nameless") []],
             XmlNode.elem "tool" none
              [XmlNode.elem "name" (some "calc") []]])
        else none)
      "GOOD" = [⟨"get_weather", some "Weather tool.", []⟩, ⟨"calc", none, []⟩] ∧
    load_skills_from_definition
      (fun s =>
        if s = "GOOD" then
          some (XmlNode.elem "tools" none
            [XmlNode.elem "tool" none
              [XmlNode.elem "name" (some "get_weather") [],
               XmlNode.elem "description" (some "Weather tool.") []],
             XmlNode.elem "tool" none
              [XmlNode.elem "description" (some "nameless") []],
             XmlNode.elem "tool" none
              [XmlNode.elem "name" (some "calc") []]])
        else none)
      "not xml at all" = [] :=
  skill_loader_partial_tolerance _ "GOOD" "not xml at all" _ _ _ _ _ _
    rfl rfl rfl rfl rfl rfl

/-- Helper for C9: with a model that always requests tools and tool-call
processing that never raises, each unit of remaining budget performs
exactly one model invocation and the budget runs to zero. -/
theorem run_agent_loop_aux_budget (json_loads : String → Except Exn Args)
    (model : List Message → Message) (tools : List RunnerTool)
    (halways : ∀ ms, (model ms).tool_calls ≠ [])
    (hok : ∀ ms, ∃ rs, processToolCalls json_loads tools (model ms).tool_calls = Except.ok rs) :
    ∀ (fuel : Nat) (messages : List Message) (count : Nat),
      run_agent_loop_aux json_loads model tools fuel messages count =
        Except.ok (maxTurnsSentinel, count + fuel) := by
  intro fuel
  induction fuel with
  | zero => intro messages count; rfl
  | succ n ih =>
    intro messages count
    obtain ⟨rs, hrs⟩ := hok messages
    have hne : (model messages).tool_calls.isEmpty = false := by
      rcases hcalls : (model messages).tool_calls with _ | _
      · exact absurd hcalls (halways messages)
      · rfl
    unfold run_agent_loop_aux
    simp only [hne, Bool.false_eq_true, if_false, hrs, ih]
    congr 2
    omega

/-- C9 amended: an agent whose model always returns tool-call requests AND
whose per-turn tool-call processing never raises (no resolved call carries
a malformed argument payload) performs exactly `max_turns = 10` model
invocations and then returns the fixed sentinel, without an error.  The
extra proviso is forced by the counterexample: a malformed payload for a
resolved tool escapes via `json.loads` and ends the loop early. -/
theorem turn_budget_termination (json_loads : String → Except Exn Args)
    (model : List Message → Message) (tools : List RunnerTool)
    (halways : ∀ ms, (model ms).tool_calls ≠ [])
    (hok : ∀ ms, ∃ rs, processToolCalls json_loads tools (model ms).tool_calls = Except.ok rs)
    (system_prompt instruction : String) :
    run_agent_loop json_loads model tools system_prompt instruction =
      Except.ok (maxTurnsSentinel, max_turns) := by
  unfold run_agent_loop
  rw [run_agent_loop_aux_budget json_loads model tools halways hok]
  rw [Nat.zero_add]

/-- C9 witness: a model that always calls an unresolved tool, so every
turn's processing succeeds (silently skipping the call). -/
theorem turn_budget_termination_witness :
    run_agent_loop (fun _ => Except.error "never parsed")
        (fun _ => ⟨"assistant", "busy", [⟨"c1", ⟨"ghost_tool", "{}"⟩⟩], none, none⟩)
        [] "sys" "go" =
      Except.ok (maxTurnsSentinel, max_turns) :=
  turn_budget_termination (fun _ => Except.error "never parsed")
    (fun _ => ⟨"assistant", "busy", [⟨"c1", ⟨"ghost_tool", "{}"⟩⟩], none, none⟩)
    [] (fun _ => List.cons_ne_nil _ _) (fun _ => ⟨[], rfl⟩) "sys" "go"

/-- C2 counterexample: a single tool call naming "missing_tool" against an
empty tool set.  The claim requires a tool-result message (reporting "tool
not found") to be appended for the unresolved call; the code appends no
message at all for it, so no appended message carries the call's id. -/
theorem unresolved_tool_counterexample :
    ¬ ∃ ms : List Message,
        processToolCalls (fun _ => Except.ok ([] : Args)) []
            [⟨"call_x", ⟨"missing_tool", "{}"⟩⟩] = Except.ok ms ∧
        ∃ m ∈ ms, m.tool_call_id = some "call_x" := by
  rintro ⟨ms, hms, m, hm, _⟩
  have hev : processToolCalls (fun _ => Except.ok ([] : Args)) []
      [⟨"call_x", ⟨"missing_tool", "{}"⟩⟩] = Except.ok [] := rfl
  rw [hev] at hms
  injection hms with h
  subst h
  exact absurd hm (List.not_mem_nil m)

/-- C2 amended: a tool-call request whose named tool is not in the agent's
resolved tool set is silently skipped — no tool-result message of any kind
is appended for it — and the loop continues with the remaining calls. -/
theorem unresolved_tool_skipped (json_loads : String → Except Exn Args)
    (tools : List RunnerTool) (tc : ToolCall) (rest : List ToolCall)
    (h : tools.find? (fun t => t.name == tc.function.name) = none) :
    processToolCall json_loads tools tc = Except.ok [] ∧
    processToolCalls json_loads tools (tc :: rest) =
      processToolCalls json_loads tools rest := by
  have h1 : processToolCall json_loads tools tc = Except.ok [] := by
    unfold processToolCall
    rw [h]
  refine ⟨h1, ?_⟩
  have hstep : processToolCalls json_loads tools (tc :: rest) =
      match processToolCall json_loads tools tc with
      | Except.error e => Except.error e
      | Except.ok rs =>
        match processToolCalls json_loads tools rest with
        | Except.error e => Except.error e
        | Except.ok rss => Except.ok (rs ++ rss) := rfl
  rw [hstep, h1]
  cases processToolCalls json_loads tools rest <;> simp

/-- C2 amended witness: the unresolved call contributes nothing. -/
theorem unresolved_tool_skipped_witness :
    processToolCall (fun _ => Except.ok ([] : Args)) []
        ⟨"call_x", ⟨"missing_tool", "{}"⟩⟩ = Except.ok [] ∧
    processToolCalls (fun _ => Except.ok ([] : Args)) []
        [⟨"call_x", ⟨"missing_tool", "{}"⟩⟩] =
      processToolCalls (fun _ => Except.ok ([] : Args)) [] [] :=
  unresolved_tool_skipped (fun _ => Except.ok ([] : Args)) []
    ⟨"call_x", ⟨"missing_tool", "{}"⟩⟩ [] rfl

/-- C3 counterexample: a resolved tool call whose argument payload is
malformed (`json.loads` raises).  The claim says processing never
propagates an exception out of the loop; here it returns `Except.error`,
so no `Except.ok` result exists. -/
theorem malformed_args_counterexample :
    ¬ ∃ ms : List Message,
        processToolCalls (fun _ => Except.error "Expecting value: line 1 column 1 (char 0)")
            [⟨"exec_command", fun _ => Except.ok "done"⟩]
            [⟨"call_1", ⟨"exec_command", "not json"⟩⟩] = Except.ok ms := by
  rintro ⟨ms, hms⟩
  have hev : processToolCalls (fun _ => Except.error "Expecting value: line 1 column 1 (char 0)")
      [⟨"exec_command", fun _ => Except.ok "done"⟩]
      [⟨"call_1", ⟨"exec_command", "not json"⟩⟩] =
      Except.error "Expecting value: line 1 column 1 (char 0)" := rfl
  rw [hev] at hms
  exact Except.noConfusion hms

/-- C3 amended: for a resolved tool-call request, an exception raised
during the tool's invocation is captured as the appended tool-result text
("Error: …"), but a malformed argument payload makes `json.loads` raise
outside the `try`, and that exception propagates out of the loop. -/
theorem resolved_tool_fault_capture (json_loads : String → Except Exn Args)
    (tools : List RunnerTool) (tc : ToolCall) (tool : RunnerTool)
    (hres : tools.find? (fun t => t.name == tc.function.name) = some tool) :
    (∀ args, json_loads tc.function.arguments = Except.ok args →
       processToolCall json_loads tools tc =
         Except.ok [mkToolResult
           (match tool.func args with
            | Except.ok res => res
            | Except.error e => String.append "Error: " e) tc]) ∧
    (∀ e, json_loads tc.function.arguments = Except.error e →
       processToolCall json_loads tools tc = Except.error e) := by
  constructor
  · intro args hargs
    unfold processToolCall
    rw [hres, hargs]
    show (match tool.func args with
          | Except.ok res => Except.ok [mkToolResult res tc]
          | Except.error e => Except.ok [mkToolResult (String.append "Error: " e) tc]) =
        Except.ok [mkToolResult
          (match tool.func args with
           | Except.ok res => res
           | Except.error e => String.append "Error: " e) tc]
    cases tool.func args <;> rfl
  · intro e he
    unfold processToolCall
    rw [hres, he]

/-- C3 amended witness: a raising tool is captured as "Error: boom"; a
malformed payload propagates the `json.loads` exception. -/
theorem resolved_tool_fault_capture_witness :
    processToolCall (fun _ => Except.ok ([] : Args))
        [⟨"exec_command", fun _ => Except.error "boom"⟩]
        ⟨"c1", ⟨"exec_command", "{}"⟩⟩ =
      Except.ok [mkToolResult "Error: boom" ⟨"c1", ⟨"exec_command", "{}"⟩⟩] ∧
    processToolCall (fun _ => Except.error "Expecting value")
        [⟨"exec_command", fun _ => Except.error "boom"⟩]
        ⟨"c1", ⟨"exec_command", "bad"⟩⟩ =
      Except.error "Expecting value" :=
  ⟨(resolved_tool_fault_capture (fun _ => Except.ok ([] : Args))
      [⟨"exec_command", fun _ => Except.error "boom"⟩]
      ⟨"c1", ⟨"exec_command", "{}"⟩⟩ ⟨"exec_command", fun _ => Except.error "boom"⟩ rfl).1
      [] rfl,
   (resolved_tool_fault_capture (fun _ => Except.error "Expecting value")
      [⟨"exec_command", fun _ => Except.error "boom"⟩]
      ⟨"c1", ⟨"exec_command", "bad"⟩⟩ ⟨"exec_command", fun _ => Except.error "boom"⟩ rfl).2
      "Expecting value" rfl⟩

/-- C4 counterexample: two registered sandboxes, the first of which fails
to stop.  The claim says the failure must not prevent the remaining
sandbox from being stopped and removed; in the code the exception
propagates out of the sweep and "sb2" is still registered (never stopped,
never removed). -/
theorem shutdown_sweep_counterexample :
    (shutdown ⟨[("sb1", ⟨"sb1", "docker", Except.error "stop failed"⟩),
                ("sb2", ⟨"sb2", "docker", Except.ok ()⟩)], 2⟩).2 = some "stop failed" ∧
    ¬ dlookup "sb2"
        (shutdown ⟨[("sb1", ⟨"sb1", "docker", Except.error "stop failed"⟩),
                    ("sb2", ⟨"sb2", "docker", Except.ok ()⟩)], 2⟩).1.instances = none := by
  constructor
  · decide
  · decide

/-- Helper for C4: the destroy loop over a snapshot of the keys removes the
leading successfully-stopping entries, then stops dead at the first entry
whose `stop()` raises, leaving it and everything after it registered. -/
theorem shutdownLoop_prefix (badId : String) (bad : SBInst) (e : Exn)
    (hbad : bad.stopResult = Except.error e) :
    ∀ (pre rest : List (String × SBInst)) (seq : Nat),
      ((pre ++ (badId, bad) :: rest).map (fun p => p.1)).Nodup →
      (∀ p ∈ pre, p.2.stopResult = Except.ok ()) →
      shutdownLoop ⟨pre ++ (badId, bad) :: rest, seq⟩
          ((pre ++ (badId, bad) :: rest).map (fun p => p.1)) =
        (⟨(badId, bad) :: rest, seq⟩, some e)
  | [], rest, seq, _, _ => by
    have hl : dlookup badId ((badId, bad) :: rest) = some bad := by
      simp [dlookup]
    have hd : destroy_sandbox ⟨(badId, bad) :: rest, seq⟩ badId =
        (⟨(badId, bad) :: rest, seq⟩, some e) := by
      simp only [destroy_sandbox, hl, hbad]
    simp only [List.nil_append, List.map_cons, shutdownLoop, hd]
  | (k, v) :: pre, rest, seq, hnodup, hpre => by
    have hmap : (((k, v) :: pre ++ (badId, bad) :: rest).map (fun p => p.1)) =
        k :: (pre ++ (badId, bad) :: rest).map (fun p => p.1) := rfl
    rw [hmap] at hnodup
    have hnot : k ∉ (pre ++ (badId, bad) :: rest).map (fun p => p.1) :=
      (List.nodup_cons.mp hnodup).1
    have hnodup' : ((pre ++ (badId, bad) :: rest).map (fun p => p.1)).Nodup :=
      (List.nodup_cons.mp hnodup).2
    have hknotin : ∀ p ∈ pre ++ (badId, bad) :: rest, decide (p.1 ≠ k) = true := by
      intro p hp
      refine decide_eq_true ?_
      intro heq
      exact hnot (heq ▸ List.mem_map_of_mem _ hp)
    have hl : dlookup k (((k, v) :: pre) ++ (badId, bad) :: rest) = some v := by
      simp [dlookup]
    have hstop : v.stopResult = Except.ok () := hpre (k, v) (List.mem_cons_self _ _)
    have hfilter : ((((k, v) :: pre) ++ (badId, bad) :: rest).filter
          (fun p => decide (p.1 ≠ k))) = pre ++ (badId, bad) :: rest := by
      rw [List.cons_append, List.filter_cons]
      have hhead : decide ((k, v).1 ≠ k) = false := by simp
      rw [hhead]
      simp only [Bool.false_eq_true, if_false]
      exact List.filter_eq_self.mpr hknotin
    have hd : destroy_sandbox ⟨((k, v) :: pre) ++ (badId, bad) :: rest, seq⟩ k =
        (⟨pre ++ (badId, bad) :: rest, seq⟩, none) := by
      simp only [destroy_sandbox, hl, hstop, hfilter]
    rw [hmap, List.cons_append]
    simp only [shutdownLoop]
    rw [show destroy_sandbox ⟨(k, v) :: (pre ++ (badId, bad) :: rest), seq⟩ k =
        (⟨pre ++ (badId, bad) :: rest, seq⟩, none) from hd]
    exact shutdownLoop_prefix badId bad e hbad pre rest seq hnodup'
      (fun p hp => hpre p (List.mem_cons_of_mem _ hp))

/-- C4 amended: `shutdown` destroys sandboxes in registration order only up
to the first stop failure: the exception propagates out of the sweep, and
the failing sandbox and every sandbox registered after it remain
registered (neither stopped nor removed). -/
theorem shutdown_aborts_at_first_failure (pre : List (String × SBInst))
    (badId : String) (bad : SBInst) (rest : List (String × SBInst))
    (seq : Nat) (e : Exn)
    (hbad : bad.stopResult = Except.error e)
    (hnodup : ((pre ++ (badId, bad) :: rest).map (fun p => p.1)).Nodup)
    (hpre : ∀ p ∈ pre, p.2.stopResult = Except.ok ()) :
    shutdown ⟨pre ++ (badId, bad) :: rest, seq⟩ =
      (⟨(badId, bad) :: rest, seq⟩, some e) := by
  unfold shutdown
  exact shutdownLoop_prefix badId bad e hbad pre rest seq hnodup hpre

/-- C4 amended witness: three sandboxes; the middle one fails to stop, the
first is destroyed, the last stays registered. -/
theorem shutdown_aborts_at_first_failure_witness :
    shutdown ⟨[("sb0", ⟨"sb0", "docker", Except.ok ()⟩)] ++
        ("sb1", ⟨"sb1", "docker", Except.error "stop failed"⟩) ::
        [("sb2", ⟨"sb2", "docker", Except.ok ()⟩)], 3⟩ =
      (⟨[("sb1", ⟨"sb1", "docker", Except.error "stop failed"⟩),
         ("sb2", ⟨"sb2", "docker", Except.ok ()⟩)], 3⟩, some "stop failed") :=
  shutdown_aborts_at_first_failure
    [("sb0", ⟨"sb0", "docker", Except.ok ()⟩)] "sb1"
    ⟨"sb1", "docker", Except.error "stop failed"⟩
    [("sb2", ⟨"sb2", "docker", Except.ok ()⟩)] 3 "stop failed"
    rfl (by decide) (by decide)

/-- C1: when a supervisor response carries delegate calls, the turn blocks
on all of them (`gather`) and appends the response message followed by
exactly one tool-result message per delegate call, in the order the calls
appeared — the result does not depend on the completion order `order`. -/
theorem supervisor_fanout_order (json_loads_d : String → Except Exn DelegateArgs)
    (delegate : DelegateArgs → String) (order : List Nat)
    (req_messages : List Message) (msg : Message)
    (pairs : List (DelegateArgs × ToolCall))
    (hp : delegateTaskList json_loads_d msg.tool_calls = Except.ok pairs)
    (hne : pairs ≠ [])
    (hall : ∀ i, i < pairs.length → i ∈ order) :
    supervisorProcessToolCalls json_loads_d delegate order req_messages msg =
      Except.ok (req_messages ++ [msg] ++
        pairs.map (fun p => mkDelegateResult (delegate p.1) p.2), true) := by
  have hIsEmpty : pairs.isEmpty = false := by
    cases pairs with
    | nil => exact absurd rfl hne
    | cons a l => rfl
  have hgather : gather (pairs.map (fun p => delegate p.1)) order =
      pairs.map (fun p => delegate p.1) := by
    refine gather_of_all_complete _ order ?_
    intro i hi
    exact hall i (by simpa using hi)
  unfold supervisorProcessToolCalls
  rw [hp]
  simp only [hIsEmpty, Bool.false_eq_true, if_false, hgather, List.zip_map',
    List.map_map]
  rfl

/-- C1 witness: three delegate calls (researcher, coder, then an unknown
agent) completing in order 2, 0, 1; the three tool-results still come back
in call order 0, 1, 2, with the unknown agent short-circuited inline. -/
theorem supervisor_fanout_order_witness :
    supervisorProcessToolCalls
      (fun s =>
        if s = "args1" then Except.ok ⟨"researcher", "find"⟩
        else if s = "args2" then Except.ok ⟨"coder", "build"⟩
        else if s = "args3" then Except.ok ⟨"writer", "draft"⟩
        else Except.error "Expecting value")
      (delegate_to_agent ["supervisor", "researcher", "coder"]
        (fun name instr => String.append (String.append name ": did ") instr))
      [2, 0, 1] []
      ⟨"assistant", "", [⟨"call_1", ⟨"delegate_to_agent", "args1"⟩⟩,
                          ⟨"call_2", ⟨"delegate_to_agent", "args2"⟩⟩,
                          ⟨"call_3", ⟨"delegate_to_agent", "args3"⟩⟩], none, none⟩ =
      Except.ok
        ([⟨"assistant", "", [⟨"call_1", ⟨"delegate_to_agent", "args1"⟩⟩,
                              ⟨"call_2", ⟨"delegate_to_agent", "args2"⟩⟩,
                              ⟨"call_3", ⟨"delegate_to_agent", "args3"⟩⟩], none, none⟩,
          ⟨"tool", "Agent researcher result: researcher: did find", [],
            some "call_1", some "delegate_to_agent"⟩,
          ⟨"tool", "Agent coder result: coder: did build", [],
            some "call_2", some "delegate_to_agent"⟩,
          ⟨"tool", "Agent writer not found.", [],
            some "call_3", some "delegate_to_agent"⟩], true) := by
  have h := supervisor_fanout_order
    (fun s =>
      if s = "args1" then Except.ok ⟨"researcher", "find"⟩
      else if s = "args2" then Except.ok ⟨"coder", "build"⟩
      else if s = "args3" then Except.ok ⟨"writer", "draft"⟩
      else Except.error "Expecting value")
    (delegate_to_agent ["supervisor", "researcher", "coder"]
      (fun name instr => String.append (String.append name ": did ") instr))
    [2, 0, 1] []
    ⟨"assistant", "", [⟨"call_1", ⟨"delegate_to_agent", "args1"⟩⟩,
                        ⟨"call_2", ⟨"delegate_to_agent", "args2"⟩⟩,
                        ⟨"call_3", ⟨"delegate_to_agent", "args3"⟩⟩], none, none⟩
    [(⟨"researcher", "find"⟩, ⟨"call_1", ⟨"delegate_to_agent", "args1"⟩⟩),
     (⟨"coder", "build"⟩, ⟨"call_2", ⟨"delegate_to_agent", "args2"⟩⟩),
     (⟨"writer", "draft"⟩, ⟨"call_3", ⟨"delegate_to_agent", "args3"⟩⟩)]
    rfl (by decide) (by decide)
  simpa using h

/-- C9 counterexample: the model is constant, so every response carries a
tool-call request (the claim's premise), but the call targets the resolved
tool "exec_command" with a malformed argument payload.  `json.loads` raises
outside the `try` (cowork_runner.py line 187), so the loop returns an error
after the first model invocation instead of performing all 10 invocations
and returning the sentinel — refuting the claim's conclusion at this
input. -/
theorem turn_budget_counterexample :
    run_agent_loop (fun _ => Except.error "Expecting value")
        (fun _ => ⟨"assistant", "", [⟨"c1", ⟨"exec_command", "not json"⟩⟩], none, none⟩)
        [⟨"exec_command", fun _ => Except.ok "done"⟩] "sys" "go" =
      Except.error "Expecting value" ∧
    ¬ run_agent_loop (fun _ => Except.error "Expecting value")
        (fun _ => ⟨"assistant", "", [⟨"c1", ⟨"exec_command", "not json"⟩⟩], none, none⟩)
        [⟨"exec_command", fun _ => Except.ok "done"⟩] "sys" "go" =
      Except.ok (maxTurnsSentinel, max_turns) := by
  constructor
  · rfl
  · intro h
    exact Except.noConfusion ((rfl : run_agent_loop (fun _ => Except.error "Expecting value")
      (fun _ => ⟨"assistant", "", [⟨"c1", ⟨"exec_command", "not json"⟩⟩], none, none⟩)
      [⟨"exec_command", fun _ => Except.ok "done"⟩] "sys" "go" =
      Except.error "Expecting value").symm.trans h)
